import Mathlib

/-!
Verification development for the SME (Subsequent Memory Effect) spectral-fitting
pipeline in JacobsPythonTools/SubjectLevel/Analyses/subject_fit_spectra.py.

Modelling conventions:
* A numpy floating-point cell is modelled by `V := Option ℚ`, where `none`
  models NaN and `some q` a finite value.  (The claims settled here concern
  NaN propagation, axis bookkeeping, control flow and error behaviour, none of
  which depend on floating-point rounding; infinities are conflated with NaN,
  which is noted wherever it could matter.)
* A numpy ndarray is modelled by `NDArr`: a shape, a dtype tag, and a total
  valuation on index lists.  Only indices valid for the shape are meaningful;
  exact ("bit-for-bit") array equality is `NDArr.ExactEq`.
* Python exceptions are modelled with `Except String`; the error string names
  the exception class raised by the original code.
* External library fits (statsmodels RLM, fooof FOOOF) are parameters of the
  embedding: the embedding records exactly which data the source hands to the
  library and where the returned pieces are stored.  Irrational helpers used
  by scipy (square root in the t statistic, the t-distribution tail for the
  p value, 10**x) are likewise parameters, since the claims depend only on
  NaN-ness and structural equality of these quantities.
-/

set_option autoImplicit false

/-- A numpy floating cell: `none` is NaN, `some q` a finite value. -/
abbrev V := Option ℚ

/-- Subtraction with NaN propagation (numpy elementwise `-`). -/
def vSub (a b : V) : V :=
  match a, b with
  | some x, some y => some (x - y)
  | _, _ => none

/-- numpy `mean` along a list of cells: NaN propagates, the mean of an empty
list is NaN (numpy warns and returns NaN). -/
def meanList (xs : List V) : V :=
  if xs.length = 0 ∨ xs.any Option.isNone then none
  else some ((xs.filterMap id).sum / (xs.length : ℚ))

/-- numpy `nanmean` along a list of cells: NaN entries are removed from both
the sum and the count; an all-NaN (or empty) list gives NaN. -/
def nanmeanList (xs : List V) : V :=
  let ys := xs.filterMap id
  if ys.length = 0 then none else some (ys.sum / (ys.length : ℚ))

/-- Sum of squared deviations from the mean (the numerator of a variance). -/
def ssdList (xs : List ℚ) : ℚ :=
  (xs.map (fun x => (x - xs.sum / (xs.length : ℚ)) ^ 2)).sum

/-- scipy.stats.ttest_ind statistic (equal_var=True, nan_policy='propagate',
the defaults used at subject_fit_spectra.py:110-120).  NaN anywhere in either
sample propagates; a sample with fewer than two entries yields NaN (its
ddof=1 variance is NaN, and an empty sample already has NaN mean).  `sq`
stands in for the square root applied to the pooled variance term; the
resulting value is NaN exactly when scipy's is (a zero denominator, where
scipy produces an infinity, is also mapped to NaN here). -/
def tstat (sq : ℚ → ℚ) (a b : List V) : V :=
  if (a ++ b).any Option.isNone then none
  else
    let xs := a.filterMap id
    let ys := b.filterMap id
    if xs.length < 2 ∨ ys.length < 2 then none
    else
      let svar := (ssdList xs + ssdList ys) / ((xs.length : ℚ) + (ys.length : ℚ) - 2)
      let d := sq (svar * (1 / (xs.length : ℚ) + 1 / (ys.length : ℚ)))
      if d = 0 then none
      else some ((xs.sum / (xs.length : ℚ) - ys.sum / (ys.length : ℚ)) / d)

/-- A numpy ndarray: shape, dtype tag and a total valuation on index lists.
Only indices valid for `shape` are meaningful. -/
structure NDArr where
  shape : List Nat
  dtype : String
  val : List Nat → V

/-- The default (empty, 0-dimensional) array, used only as a `getD` fallback. -/
def NDArr.empty : NDArr := ⟨[], "float64", fun _ => none⟩

/-- An index list is valid for a shape when it has the same length and is
componentwise below it. -/
def ValidIdx (s idx : List Nat) : Prop :=
  idx.length = s.length ∧ ∀ k, k < s.length → idx.getD k 0 < s.getD k 0

/-- Exact array equality: same shape, same dtype, same value at every valid
index ("bit-for-bit" identical layout and contents). -/
def NDArr.ExactEq (a b : NDArr) : Prop :=
  a.shape = b.shape ∧ a.dtype = b.dtype ∧
    ∀ idx, ValidIdx a.shape idx → a.val idx = b.val idx

/-- Swap positions `i` and `j` of a list (used for both shapes and indices;
out-of-range positions are left untouched, matching `List.set`). -/
def listSwap (i j : Nat) (l : List Nat) : List Nat :=
  (l.set i (l.getD j 0)).set j (l.getD i 0)

theorem listSwap_length (i j : Nat) (l : List Nat) :
    (listSwap i j l).length = l.length := by
  simp [listSwap]

theorem listSwap23_listSwap23 (l : List Nat) (h : l.length = 4) :
    listSwap 2 3 (listSwap 2 3 l) = l := by
  match l with
  | [a, b, c, d] => simp [listSwap]

/-- numpy `swapaxes(a, i, j)`: raises AxisError when either axis is out of
bounds for the array's rank. -/
def NDArr.swapaxesE (a : NDArr) (i j : Nat) : Except String NDArr :=
  if i < a.shape.length ∧ j < a.shape.length then
    .ok ⟨listSwap i j a.shape, a.dtype, fun idx => a.val (listSwap i j idx)⟩
  else .error "AxisError"

/-- Axis normalization, subject_fit_spectra.py:73-76: a 4D power array with
the time axis (3) strictly smaller than the electrode axis (2) has those two
axes swapped, so the larger axis is parallelized over; the flag records
whether a swap happened. -/
def AxisOrientation.normalize (a : NDArr) : NDArr × Bool :=
  if a.shape.length = 4 ∧ a.shape.getD 3 0 < a.shape.getD 2 0 then
    (⟨listSwap 2 3 a.shape, a.dtype, fun idx => a.val (listSwap 2 3 idx)⟩, true)
  else (a, false)

/-- Reversal of the normalization swap: transpose electrode and time axes
again when (and only when) the flag says a swap happened. -/
def AxisOrientation.denormalize (a : NDArr) (sw : Bool) : NDArr :=
  if sw then ⟨listSwap 2 3 a.shape, a.dtype, fun idx => a.val (listSwap 2 3 idx)⟩
  else a

/-- C4: the axis normalization (swapping the electrode and time axes when the
array is 4D and the time axis is strictly smaller) composed with its
denormalization is an exact involution: for every array — every 3D array and
every 4D array, whether the time axis is smaller or larger than the electrode
axis — denormalize (normalize a) reproduces `a` exactly: same shape (axis
order), same dtype and same value at every valid index. -/
theorem c4_normalize_denormalize_involution (a : NDArr) :
    NDArr.ExactEq
      (AxisOrientation.denormalize (AxisOrientation.normalize a).1
        (AxisOrientation.normalize a).2) a := by
  by_cases h : a.shape.length = 4 ∧ a.shape.getD 3 0 < a.shape.getD 2 0
  · have e1 : AxisOrientation.normalize a =
        (⟨listSwap 2 3 a.shape, a.dtype, fun idx => a.val (listSwap 2 3 idx)⟩, true) := by
      unfold AxisOrientation.normalize
      rw [if_pos h]
    rw [e1]
    show NDArr.ExactEq
      ⟨listSwap 2 3 (listSwap 2 3 a.shape), a.dtype,
        fun idx => a.val (listSwap 2 3 (listSwap 2 3 idx))⟩ a
    refine ⟨listSwap23_listSwap23 a.shape h.1, rfl, ?_⟩
    intro idx hidx
    have hlen : idx.length = 4 := by
      have h1 := hidx.1
      rwa [listSwap23_listSwap23 a.shape h.1, h.1] at h1
    show a.val (listSwap 2 3 (listSwap 2 3 idx)) = a.val idx
    rw [listSwap23_listSwap23 idx hlen]
  · have e1 : AxisOrientation.normalize a = (a, false) := by
      unfold AxisOrientation.normalize
      rw [if_neg h]
    rw [e1]
    exact ⟨rfl, rfl, fun idx _ => rfl⟩

/-- numpy `.T`: reverse all axes. -/
def NDArr.transposeT (a : NDArr) : NDArr :=
  ⟨a.shape.reverse, a.dtype, fun idx => a.val idx.reverse⟩

/-- Iteration over axis 0 (`for y in arr`): the list of subarrays. -/
def NDArr.slices (a : NDArr) : List NDArr :=
  (List.range (a.shape.headD 0)).map
    (fun k => ⟨a.shape.tail, a.dtype, fun idx => a.val (k :: idx)⟩)

/-- Indexing along axis 0 (`arr[k]`). -/
def NDArr.slice0 (a : NDArr) (k : Nat) : NDArr :=
  ⟨a.shape.tail, a.dtype, fun idx => a.val (k :: idx)⟩

/-- numpy `np.stack(list, -1)`: a new trailing axis indexes the list. -/
def NDArr.stackLast (l : List NDArr) : NDArr :=
  ⟨(l.headD NDArr.empty).shape ++ [l.length], (l.headD NDArr.empty).dtype,
   fun idx => (l.getD (idx.getLastD 0) NDArr.empty).val idx.dropLast⟩

/-- numpy `np.stack([a, b], 0)`: a new leading axis of length 2. -/
def stack2Ax0 (a b : NDArr) : NDArr :=
  ⟨2 :: a.shape, a.dtype,
   fun idx => if idx.headD 0 = 0 then a.val idx.tail else b.val idx.tail⟩

/-- Positions at which a boolean mask is true, in increasing order. -/
def trueIndices : List Bool → List Nat
  | [] => []
  | b :: m =>
    if b then 0 :: (trueIndices m).map (fun k => k + 1)
    else (trueIndices m).map (fun k => k + 1)

/-- The boolean-indexed array: row k of the result is the k-th row of `a`
whose mask entry is true. -/
def maskedArr (a : NDArr) (m : List Bool) : NDArr :=
  ⟨(trueIndices m).length :: a.shape.tail, a.dtype,
   fun idx => a.val ((trueIndices m).getD (idx.headD 0) 0 :: idx.tail)⟩

/-- Boolean indexing along axis 0 (`arr[mask]`): keeps the rows whose mask
entry is true.  numpy raises IndexError when the mask length does not match
the length of axis 0. -/
def NDArr.maskE (a : NDArr) (m : List Bool) : Except String NDArr :=
  if m.length = a.shape.headD 0 then .ok (maskedArr a m)
  else .error "IndexError"

/-- The column of values along axis 0 above a fixed index of the remaining
axes. -/
def NDArr.col0 (a : NDArr) (idx : List Nat) : List V :=
  (List.range (a.shape.headD 0)).map (fun k => a.val (k :: idx))

/-- numpy `np.mean(arr, axis=0)` (NaN propagates). -/
def NDArr.mean0 (a : NDArr) : NDArr :=
  ⟨a.shape.tail, a.dtype, fun idx => meanList (a.col0 idx)⟩

/-- numpy `np.nanmean(arr, axis=0)` (NaN entries excluded from sum and
count). -/
def NDArr.nanmean0 (a : NDArr) : NDArr :=
  ⟨a.shape.tail, a.dtype, fun idx => nanmeanList (a.col0 idx)⟩

/-- Elementwise subtraction of arrays of equal shape. -/
def NDArr.sub (a b : NDArr) : NDArr :=
  ⟨a.shape, a.dtype, fun idx => vSub (a.val idx) (b.val idx)⟩

/-- Elementwise map over the cells of an array. -/
def NDArr.mapV (a : NDArr) (f : V → V) : NDArr :=
  ⟨a.shape, a.dtype, fun idx => f (a.val idx)⟩

/-- Sequential effectful map, modelling a Python list comprehension whose
body may raise: the first raise aborts the whole comprehension. -/
def mapME {α β : Type} (f : α → Except String β) : List α → Except String (List β)
  | [] => .ok []
  | a :: l => do
    let b ← f a
    let bs ← mapME f l
    .ok (b :: bs)

theorem mapME_append {α β : Type} (f : α → Except String β) (l₁ l₂ : List α) :
    mapME f (l₁ ++ l₂) =
      (mapME f l₁).bind (fun b₁ =>
        (mapME f l₂).bind (fun b₂ => Except.ok (b₁ ++ b₂))) := by
  induction l₁ with
  | nil =>
    cases h : mapME f l₂ with
    | error e => simp [mapME, h, Except.bind]
    | ok bs => simp [mapME, h, Except.bind]
  | cons a t ih =>
    show ((f a).bind fun b => (mapME f (t ++ l₂)).bind fun bs => Except.ok (b :: bs)) =
      ((f a).bind fun b => (mapME f t).bind fun bs => Except.ok (b :: bs)).bind
        (fun b₁ => (mapME f l₂).bind fun b₂ => Except.ok (b₁ ++ b₂))
    rw [ih]
    cases f a with
    | error e => rfl
    | ok b =>
      cases mapME f t with
      | error e => rfl
      | ok bs =>
        cases mapME f l₂ with
        | error e => rfl
        | ok b₂ => rfl

theorem mapME_map_range {α β : Type} (n : Nat) (g : Nat → α)
    (f : α → Except String β) (res : Nat → β)
    (h : ∀ i, i < n → f (g i) = .ok (res i)) :
    mapME f ((List.range n).map g) = .ok ((List.range n).map res) := by
  induction n with
  | zero => simp [mapME]
  | succ m ih =>
    simp only [List.range_succ, List.map_append, List.map_cons, List.map_nil]
    rw [mapME_append, ih (fun i hi => h i (Nat.lt_succ_of_lt hi))]
    simp only [mapME, h m (Nat.lt_succ_self m)]
    rfl

/-- Output of one external background fit: statsmodels RLM's params[0]
(the constant-column coefficient, stored as the offset), params[1] (the
slope) and resid; or fooof's background_params_[0], background_params_[1]
and _peak_fit. -/
structure RegOut where
  offset : V
  slope : V
  resid : List V
deriving DecidableEq

/-- NaN prefill, matching np.full(..., np.nan) at subject_fit_spectra.py
lines 324-326/360-362: cells the loops never write keep this value. -/
def RegOut.nanFill : RegOut := ⟨none, none, []⟩

/-- The triple of arrays a fitter returns: slopes (num obs[, num subunits]),
offsets (same shape) and resids (the shape of the fitter's input). -/
structure FitTriple where
  slopes : NDArr
  offsets : NDArr
  resids : NDArr

/-- Assembly of the NaN-prefilled result arrays for a 3D fitter input of
shape (n, d1, d2): res_shape = (y.shape[0], y.shape[-1]) = (n, d2) for
slopes and offsets, y.shape for resids; the cell at (i, j) carries the j-th
fit of event i (offsets[i, j], slopes[i, j], resids[i, :, j]), with the NaN
prefill at positions the loops never wrote. -/
def assemble3D (n d1 d2 : Nat) (fits : List (List RegOut)) : FitTriple :=
  ⟨⟨[n, d2], "float32", fun idx =>
      ((fits.getD (idx.getD 0 0) []).getD (idx.getD 1 0) RegOut.nanFill).slope⟩,
   ⟨[n, d2], "float32", fun idx =>
      ((fits.getD (idx.getD 0 0) []).getD (idx.getD 1 0) RegOut.nanFill).offset⟩,
   ⟨[n, d1, d2], "float32", fun idx =>
      ((fits.getD (idx.getD 0 0) []).getD (idx.getD 2 0)
        RegOut.nanFill).resid.getD (idx.getD 1 0) none⟩⟩

/-- Assembly of the NaN-prefilled result arrays for a 2D fitter input of
shape (n, m): slopes and offsets are 1D of length n, resids is (n, m). -/
def assemble2D (n m : Nat) (fits : List RegOut) : FitTriple :=
  ⟨⟨[n], "float32", fun idx => (fits.getD (idx.getD 0 0) RegOut.nanFill).slope⟩,
   ⟨[n], "float32", fun idx => (fits.getD (idx.getD 0 0) RegOut.nanFill).offset⟩,
   ⟨[n, m], "float32", fun idx =>
      (fits.getD (idx.getD 0 0) RegOut.nanFill).resid.getD (idx.getD 1 0) none⟩⟩

/-- Processing of one 2D per-event slice `this_event` inside robust_reg
(subject_fit_spectra.py:364-376).  The frequency axis is resolved by
matching each axis length against `len(x)` = `nf`; when no axis matches,
`np.where(freq_dim)[0][0]` raises IndexError.  When axis 0 matches
(freq_dim_num == 0 — the first matching axis, so also when both match) the
slice is transposed and each of its `d2` columns (length `d1`) is fitted.
When only axis 1 matches the slice stays untransposed and its `d1` rows
(length `d2`) are fitted; numpy then raises ValueError at
`resids[i, :, j] = rlm_results.resid` when the residual length differs from
the slot length `d1`, and IndexError at `offsets[i, j]` once `j` reaches
`d2 < d1`; the checks below model those assignment errors. -/
def fitSlice2D (rlmFit : List V → RegOut) (nf : Nat) (ev : NDArr) :
    Except String (List RegOut) :=
  let d1 := ev.shape.getD 0 0
  let d2 := ev.shape.getD 1 0
  if d1 = nf then
    let outs := (List.range d2).map
      (fun j => rlmFit ((List.range d1).map (fun r => ev.val [r, j])))
    if outs.all (fun o => o.resid.length = d1) then .ok outs
    else .error "ValueError"
  else if d2 = nf then
    let outs := (List.range d1).map
      (fun j => rlmFit ((List.range d2).map (fun r => ev.val [j, r])))
    if outs.all (fun o => o.resid.length = d1) ∧ d1 ≤ d2 then .ok outs
    else .error "ValueError"
  else .error "IndexError"

/-- robust_reg (subject_fit_spectra.py:353-383).  `rlmFit` models the
external call RLM(this_event_sub, x, M=LeastSquares()).fit(), already
closed over the design matrix x = add_constant(log10(freqs)); `nf` is
`len(x)`, the number of frequencies.  Each entry of y is fitted one
spectrum at a time; there is no exception handling in the loop, so any
raise propagates out of the whole batch. -/
def robust_reg (rlmFit : List V → RegOut) (nf : Nat) (y : NDArr) :
    Except String FitTriple :=
  if y.shape.length = 3 then
    let n := y.shape.getD 0 0
    let d1 := y.shape.getD 1 0
    let d2 := y.shape.getD 2 0
    (mapME (fun i => fitSlice2D rlmFit nf (y.slice0 i)) (List.range n)).bind
      (fun fits => .ok (assemble3D n d1 d2 fits))
  else if y.shape.length = 2 then
    let n := y.shape.getD 0 0
    let m := y.shape.getD 1 0
    let fits := (List.range n).map
      (fun i => rlmFit ((List.range m).map (fun r => y.val [i, r])))
    if fits.all (fun o => o.resid.length = m) then .ok (assemble2D n m fits)
    else .error "ValueError"
  else .error "ValueError"

/-- The data handed to fooof's add_data: either one 1D spectrum
(`fm.add_data(x, this_event)`, the 2D-input branch, line 344) or — as the
3D-input branch at line 338 actually does — the fitter's entire input
array (`fm.add_data(x, y)`). -/
inductive FoofData where
  | spectrum : List V → FoofData
  | batch : NDArr → FoofData

/-- Processing of one 2D per-event slice inside run_foof
(subject_fit_spectra.py:332-342).  The frequency-axis resolution and the
assignment length checks are the same as in fitSlice2D, but the data handed
to the library is `fm.add_data(x, y)` — the fitter's whole 3D input `y`,
not the current sub-spectrum — once per (event, sub-unit) iteration. -/
def runFoofSlice (fooofFit : FoofData → Except String RegOut) (nf : Nat)
    (y : NDArr) (i : Nat) : Except String (List RegOut) :=
  let ev := y.slice0 i
  let d1 := ev.shape.getD 0 0
  let d2 := ev.shape.getD 1 0
  if d1 = nf then
    (mapME (fun _ => fooofFit (.batch y)) (List.range d2)).bind
      (fun outs =>
        if outs.all (fun o => o.resid.length = d1) then .ok outs
        else .error "ValueError")
  else if d2 = nf then
    (mapME (fun _ => fooofFit (.batch y)) (List.range d1)).bind
      (fun outs =>
        if outs.all (fun o => o.resid.length = d1) ∧ d1 ≤ d2 then .ok outs
        else .error "ValueError")
  else .error "IndexError"

/-- run_foof (subject_fit_spectra.py:317-350).  `fooofFit` models the
external FOOOF fit of whatever data was passed to add_data (returning
background params and the peak fit, or raising).  As in robust_reg there is
no exception handling in the loops. -/
def run_foof (fooofFit : FoofData → Except String RegOut) (nf : Nat)
    (y : NDArr) : Except String FitTriple :=
  if y.shape.length = 3 then
    let n := y.shape.getD 0 0
    let d1 := y.shape.getD 1 0
    let d2 := y.shape.getD 2 0
    (mapME (runFoofSlice fooofFit nf y) (List.range n)).bind
      (fun fits => .ok (assemble3D n d1 d2 fits))
  else if y.shape.length = 2 then
    let n := y.shape.getD 0 0
    let m := y.shape.getD 1 0
    (mapME (fun i =>
        fooofFit (.spectrum ((List.range m).map (fun r => y.val [i, r]))))
      (List.range n)).bind
      (fun fits =>
        if fits.all (fun o => o.resid.length = m) then .ok (assemble2D n m fits)
        else .error "ValueError")
  else .error "ValueError"

/-- The attribute-configuration of a SubjectFitSpectraAnalysis run: use_fooof
and fooof_fit_each_event (set in __init__, lines 41/49) and the log_power
flag of the power data. -/
structure Config where
  use_fooof : Bool
  fooof_fit_each_event : Bool
  log_power : Bool

/-- The inputs analysis() reads from the object: the PowerArray
(self.subject_data.data, none when data was never loaded), the frequency
vector self.freqs, and the recall labels the user's recall_filter_func
produces (none when the attribute was never set — calling None raises). -/
structure Inputs where
  subject_data : Option NDArr
  freqs : List ℚ
  recallLabels : Option (List Bool)

/-- The self.res keys analysis() can write (line 124-141); a `none` field is
an absent key. -/
structure ResState where
  ts_resid : Option NDArr
  ps_resid : Option NDArr
  ts_slopes : Option NDArr
  ps_slopes : Option NDArr
  ts_offsets : Option NDArr
  ps_offsets : Option NDArr
  delta_resid : Option NDArr
  delta_slopes : Option NDArr
  delta_offsets : Option NDArr
  p_recall : Option V
  recalled : Option (List Bool)

/-- The guard of the first contrast branch, line 99:
`(not self.use_fooof) or (self.use_fooof and self.fooof_fit_each_event)`. -/
def perEventBranchCond (cfg : Config) : Bool :=
  (!cfg.use_fooof) || (cfg.use_fooof && cfg.fooof_fit_each_event)

/-- The guard of the elif branch, line 131:
`self.use_fooof and not self.fooof_fit_each_event`. -/
def meanOnlyBranchCond (cfg : Config) : Bool :=
  cfg.use_fooof && !cfg.fooof_fit_each_event

/-- Per-unit group-mean difference, lines 102-107:
`np.nanmean(x[recalled], axis=0) - np.nanmean(x[~recalled], axis=0)`. -/
def deltaArr (a : NDArr) (m : List Bool) : Except String NDArr :=
  (a.maskE m).bind (fun r =>
    (a.maskE (m.map not)).bind (fun nr =>
      .ok (NDArr.sub r.nanmean0 nr.nanmean0)))

/-- Per-unit two-sample t-test along the event axis, lines 110-122:
`ttest_ind(x[recalled], x[~recalled], axis=0)`, yielding the statistic and
p-value arrays.  `pf` stands in for scipy's two-sided tail probability of a
finite statistic; the p-value is NaN exactly when the statistic is. -/
def ttestAx0 (sq pf : ℚ → ℚ) (a : NDArr) (m : List Bool) :
    Except String (NDArr × NDArr) :=
  (a.maskE m).bind (fun r =>
    (a.maskE (m.map not)).bind (fun nr =>
      .ok (⟨a.shape.tail, "float64",
              fun idx => tstat sq (r.col0 idx) (nr.col0 idx)⟩,
           ⟨a.shape.tail, "float64",
              fun idx => Option.map pf (tstat sq (r.col0 idx) (nr.col0 idx))⟩)))

/-- Conditional swap-back used when storing results (lines 124-129 and
137-139): a plain swapaxes call when the flag is set, else the identity. -/
def swapIf (b : Bool) (i j : Nat) (a : NDArr) : Except String NDArr :=
  if b then a.swapaxesE i j else .ok a

/-- Lines 66-94: choose the spectra the fitters will see.  The loaded array
is normalized (lines 73-76); robust regression uses it as-is.  For fooof
with log_power, line 89 re-reads self.subject_data.data — the raw,
UNnormalized array — and exponentiates it, silently discarding the axis
swap while is_swapped stays set.  In the default fooof mode (lines 93-94)
the across-event mean spectrum of each recall condition is computed with
np.mean and the two means are stacked as a 2-event array. -/
def preparedInput (tenPow : ℚ → ℚ) (cfg : Config) (data : NDArr)
    (recalled : List Bool) : Except String (NDArr × Bool) :=
  let norm := AxisOrientation.normalize data
  if !cfg.use_fooof then .ok norm
  else
    let pRaw := if cfg.log_power then data.mapV (fun v => v.map tenPow)
      else norm.1
    if !cfg.fooof_fit_each_event then
      (pRaw.maskE recalled).bind (fun a =>
        (pRaw.maskE (recalled.map not)).bind (fun b =>
          .ok (stack2Ax0 a.mean0 b.mean0, norm.2)))
    else .ok (pRaw, norm.2)

/-- The per-unit arrays handed to the fitter at line 97:
`f(x, y.T) for y in p_spects.T`, with joblib.Parallel preserving order. -/
def unitsOf (p : NDArr) : List NDArr :=
  p.transposeT.slices.map NDArr.transposeT

/-- Lines 58-97: the precondition prints (which do NOT return — the
subsequent uses raise instead: a missing recall_filter_func raises TypeError
when the None is called at line 64, missing subject_data raises on the
attribute access at line 68), spectra preparation, and the parallel fitting
loop.  Every unit's fit is computed here, before any contrast work. -/
def fitStage (rlmFit : List V → RegOut)
    (fooofFit : FoofData → Except String RegOut) (tenPow : ℚ → ℚ)
    (cfg : Config) (inp : Inputs) : Except String (List FitTriple) :=
  match inp.recallLabels with
  | none => .error "TypeError"
  | some recalled =>
    match inp.subject_data with
    | none => .error "AttributeError"
    | some data =>
      (preparedInput tenPow cfg data recalled).bind (fun ps =>
        mapME
          (fun u =>
            if cfg.use_fooof then run_foof fooofFit inp.freqs.length u
            else robust_reg rlmFit inp.freqs.length u)
          (unitsOf ps.1))

/-- Lines 99-141: the contrast computation and the result stores, including
the conditional swap-backs.  The two branch guards are written exactly as in
the source (if at line 99, elif at line 131); the final error arm is
unreachable because the guards are complementary (were it reached, line 137
would raise NameError on the undefined delta_resid). -/
def contrastStage (sq pf : ℚ → ℚ) (cfg : Config) (is_swapped : Bool)
    (recalled : List Bool) (res : List FitTriple) : Except String ResState :=
  let pr : Option V :=
    if recalled.length = 0 then some none
    else some (some ((recalled.count true : ℚ) / (recalled.length : ℚ)))
  if perEventBranchCond cfg then
    (mapME (fun t => deltaArr t.resids recalled) res).bind (fun drs =>
    (mapME (fun t => deltaArr t.slopes recalled) res).bind (fun dss =>
    (mapME (fun t => deltaArr t.offsets recalled) res).bind (fun dos =>
    (mapME (fun t => ttestAx0 sq pf t.resids recalled) res).bind (fun trs =>
    (mapME (fun t => ttestAx0 sq pf t.slopes recalled) res).bind (fun tss =>
    (mapME (fun t => ttestAx0 sq pf t.offsets recalled) res).bind (fun tos =>
      let delta_resid := NDArr.stackLast drs
      let delta_slopes := NDArr.stackLast dss
      let delta_offsets := NDArr.stackLast dos
      (swapIf is_swapped 1 2 (NDArr.stackLast (trs.map Prod.fst))).bind (fun tsr =>
      (swapIf is_swapped 1 2 (NDArr.stackLast (trs.map Prod.snd))).bind (fun psr =>
      (swapIf is_swapped 0 1 (NDArr.stackLast (tss.map Prod.fst))).bind (fun tssl =>
      (swapIf is_swapped 0 1 (NDArr.stackLast (tss.map Prod.snd))).bind (fun pssl =>
      (swapIf is_swapped 0 1 (NDArr.stackLast (tos.map Prod.fst))).bind (fun tsof =>
      (swapIf is_swapped 0 1 (NDArr.stackLast (tos.map Prod.snd))).bind (fun psof =>
      (swapIf is_swapped 1 2 delta_resid).bind (fun drf =>
      (swapIf is_swapped 1 2 delta_slopes).bind (fun dsf =>
      (swapIf is_swapped 1 2 delta_offsets).bind (fun dof =>
        .ok ⟨some tsr, some psr, some tssl, some pssl, some tsof, some psof,
             some drf, some dsf, some dof, pr, some recalled⟩)))))))))))))))
  else if meanOnlyBranchCond cfg then
    let delta_resid := NDArr.stackLast
      (res.map (fun t => NDArr.sub (t.resids.slice0 0) (t.resids.slice0 1)))
    let delta_slopes := NDArr.stackLast
      (res.map (fun t => NDArr.sub (t.slopes.slice0 0) (t.slopes.slice0 1)))
    let delta_offsets := NDArr.stackLast
      (res.map (fun t => NDArr.sub (t.offsets.slice0 0) (t.offsets.slice0 1)))
    (swapIf is_swapped 1 2 delta_resid).bind (fun drf =>
    (swapIf is_swapped 1 2 delta_slopes).bind (fun dsf =>
    (swapIf is_swapped 1 2 delta_offsets).bind (fun dof =>
      .ok ⟨none, none, none, none, none, none,
           some drf, some dsf, some dof, pr, some recalled⟩)))
  else .error "NameError"

/-- The analysis() method, subject_fit_spectra.py:54-141, with the external
fits and the irrational scalar helpers as parameters.  An `ok` result models
self.res after the method returns; an error is the exception the method
raises.  (Key assignments the source makes before a later line raises are
not observable in this model; none of the claims settled here depend on
them.) -/
def analysisE (rlmFit : List V → RegOut)
    (fooofFit : FoofData → Except String RegOut) (sq pf tenPow : ℚ → ℚ)
    (cfg : Config) (inp : Inputs) : Except String ResState :=
  match inp.recallLabels with
  | none => .error "TypeError"
  | some recalled =>
    match inp.subject_data with
    | none => .error "AttributeError"
    | some data =>
      (preparedInput tenPow cfg data recalled).bind (fun ps =>
        (mapME
          (fun u =>
            if cfg.use_fooof then run_foof fooofFit inp.freqs.length u
            else robust_reg rlmFit inp.freqs.length u)
          (unitsOf ps.1)).bind
        (fun res => contrastStage sq pf cfg ps.2 recalled res))

theorem getD_range (n i : Nat) (h : i < n) : (List.range n).getD i 0 = i := by
  simp [List.getD_eq_getElem?_getD, List.getElem?_range h]

theorem getD_map {α β : Type} (f : α → β) (l : List α) (i : Nat) (d : β)
    (d' : α) (h : i < l.length) : (l.map f).getD i d = f (l.getD i d') := by
  simp [List.getD_eq_getElem?_getD, List.getElem?_map, List.getElem?_eq_getElem h]

theorem getD_map_range {β : Type} (g : Nat → β) (n i : Nat) (d : β)
    (h : i < n) : ((List.range n).map g).getD i d = g i := by
  rw [getD_map g (List.range n) i d 0 (by simpa using h), getD_range n i h]

theorem all_map_range {β : Type} (g : Nat → β) (p : β → Bool) (n : Nat)
    (h : ∀ i, i < n → p (g i) = true) :
    ((List.range n).map g).all p = true := by
  rw [List.all_eq_true]
  intro x hx
  rw [List.mem_map] at hx
  obtain ⟨i, hi, rfl⟩ := hx
  exact h i (List.mem_range.mp hi)

/-- A variant of mapME_map_range for a bare range list. -/
theorem mapME_range {β : Type} (n : Nat) (f : Nat → Except String β)
    (res : Nat → β) (h : ∀ i, i < n → f i = .ok (res i)) :
    mapME f (List.range n) = .ok ((List.range n).map res) := by
  have h1 := mapME_map_range n id f res (fun i hi => h i hi)
  simpa using h1

/-- The fitting loop's view of a normalized power array: the unit with outer
index k sees the array restricted to that index on the last axis, with the
remaining axes in their original order. -/
theorem unitsOf_eq (p : NDArr) :
    unitsOf p = (List.range (p.shape.reverse.headD 0)).map (fun k =>
      ⟨p.shape.reverse.tail.reverse, p.dtype, fun idx => p.val (idx ++ [k])⟩) := by
  unfold unitsOf NDArr.transposeT NDArr.slices
  simp only [List.map_map]
  have hfun : ((fun a : NDArr =>
        NDArr.mk a.shape.reverse a.dtype (fun idx => a.val idx.reverse)) ∘
      fun k => NDArr.mk p.shape.reverse.tail p.dtype
        (fun idx => p.val ((k :: idx)).reverse)) =
      fun k => NDArr.mk p.shape.reverse.tail.reverse p.dtype
        (fun idx => p.val (idx ++ [k])) := by
    funext k
    simp only [Function.comp]
    refine congrArg (NDArr.mk _ _) (funext fun idx => ?_)
    simp [List.reverse_cons]
  rw [hfun]

/-- run_foof on a 2D input (n events × m frequency bins): each event's row
is handed to the library as one spectrum and the results are assembled in
order. -/
theorem run_foof_2d (ff : FoofData → Except String RegOut) (nf n m : Nat)
    (y : NDArr) (hs : y.shape = [n, m]) (fits : Nat → RegOut)
    (hok : ∀ i, i < n →
      ff (.spectrum ((List.range m).map (fun r => y.val [i, r]))) = .ok (fits i))
    (hlen : ∀ i, i < n → (fits i).resid.length = m) :
    run_foof ff nf y = .ok (assemble2D n m ((List.range n).map fits)) := by
  unfold run_foof
  rw [hs]
  rw [if_neg (by simp), if_pos (by simp)]
  simp only [List.getD_cons_zero, List.getD_cons_succ]
  rw [mapME_range n _ fits hok]
  show (if ((List.range n).map fits).all (fun o => o.resid.length = m)
    then Except.ok (assemble2D n m ((List.range n).map fits))
    else Except.error "ValueError") = _
  rw [if_pos (all_map_range fits _ n (fun i hi => by simp [hlen i hi]))]

/-- run_foof on a 3D input whose slices have their first axis equal to the
frequency count: the data handed to the library at every (event, sub-unit)
iteration is the whole 3D batch `y` (line 338), so every cell of the result
carries the same whole-batch fit `r`. -/
theorem run_foof_3d (ff : FoofData → Except String RegOut) (nf n d2 : Nat)
    (y : NDArr) (r : RegOut) (hs : y.shape = [n, nf, d2])
    (hb : ff (.batch y) = .ok r) (hr : r.resid.length = nf) :
    run_foof ff nf y =
      .ok (assemble3D n nf d2
        ((List.range n).map (fun _ => (List.range d2).map (fun _ => r)))) := by
  have hslice : ∀ i, i < n →
      runFoofSlice ff nf y i = .ok ((List.range d2).map (fun _ => r)) := by
    intro i hi
    unfold runFoofSlice
    simp only [NDArr.slice0, hs, List.tail_cons, List.getD_cons_zero,
      List.getD_cons_succ]
    rw [if_pos trivial]
    rw [mapME_range d2 _ (fun _ => r) (fun j hj => hb)]
    show (if ((List.range d2).map (fun _ => r)).all (fun o => o.resid.length = nf)
      then Except.ok ((List.range d2).map (fun _ => r))
      else Except.error "ValueError") = _
    rw [if_pos (all_map_range (fun _ => r) _ d2 (fun j hj => by simp [hr]))]
  unfold run_foof
  rw [hs]
  rw [if_pos (by simp)]
  simp only [List.getD_cons_zero, List.getD_cons_succ]
  rw [mapME_range n _ (fun _ => (List.range d2).map (fun _ => r)) hslice]
  rfl

theorem map_range_getD {α β : Type} (l : List α) (f : α → β) (d : α) :
    (List.range l.length).map (fun k => f (l.getD k d)) = l.map f := by
  induction l with
  | nil => simp
  | cons a t ih =>
    rw [List.length_cons, List.range_succ_eq_map]
    simp only [List.map_cons, List.map_map, List.getD_cons_zero]
    refine congrArg _ ?_
    have hfun : ((fun k => f ((a :: t).getD k d)) ∘ Nat.succ) =
        (fun k => f (t.getD k d)) := by
      funext k
      simp [Function.comp]
    rw [hfun, ih]

theorem map_range_congr {β : Type} (n : Nat) (g₁ g₂ : Nat → β)
    (h : ∀ i, i < n → g₁ i = g₂ i) :
    (List.range n).map g₁ = (List.range n).map g₂ := by
  induction n with
  | zero => simp
  | succ m ih =>
    rw [List.range_succ, List.map_append, List.map_append,
      ih (fun i hi => h i (Nat.lt_succ_of_lt hi))]
    simp [h m (Nat.lt_succ_self m)]

theorem headD_map_range {β : Type} (n : Nat) (g : Nat → β) (d : β)
    (h : 0 < n) : ((List.range n).map g).headD d = g 0 := by
  cases n with
  | zero => exact absurd h (by simp)
  | succ m => rw [List.range_succ_eq_map]; rfl

/-- Boolean selection from a per-coordinate column of events, the
column-level view of `arr[mask]` along the event axis. -/
def maskList {α : Type} : List α → List Bool → List α
  | [], _ => []
  | _ :: _, [] => []
  | x :: xs, b :: m => if b then x :: maskList xs m else maskList xs m

/-- Selecting the masked entries of a column equals mapping the column over
the positions where the mask is true. -/
theorem trueIndices_map {β : Type} (g : Nat → β) (m : List Bool) :
    (trueIndices m).map g = maskList ((List.range m.length).map g) m := by
  induction m generalizing g with
  | nil => simp [trueIndices, maskList]
  | cons b t ih =>
    cases b with
    | true =>
      show (0 :: (trueIndices t).map (fun k => k + 1)).map g =
        maskList ((List.range (t.length + 1)).map g) (true :: t)
      rw [List.range_succ_eq_map]
      show g 0 :: ((trueIndices t).map (fun k => k + 1)).map g =
        g 0 :: maskList (((List.range t.length).map Nat.succ).map g) t
      refine congrArg _ ?_
      rw [List.map_map, List.map_map]
      exact ih (fun k => g (k + 1))
    | false =>
      show ((trueIndices t).map (fun k => k + 1)).map g =
        maskList ((List.range (t.length + 1)).map g) (false :: t)
      rw [List.range_succ_eq_map]
      show ((trueIndices t).map (fun k => k + 1)).map g =
        maskList (((List.range t.length).map Nat.succ).map g) t
      rw [List.map_map, List.map_map]
      exact ih (fun k => g (k + 1))

/-- The column of a masked array above a fixed coordinate is the masked
column of the original array. -/
theorem maskE_col0 (a : NDArr) (m : List Bool) (g : NDArr) (idx : List Nat)
    (h : a.maskE m = .ok g) (hl : m.length = a.shape.headD 0) :
    g.col0 idx = maskList (a.col0 idx) m := by
  unfold NDArr.maskE at h
  rw [if_pos hl] at h
  cases h
  show (List.range (trueIndices m).length).map
      (fun k => a.val ((trueIndices m).getD k 0 :: idx)) =
    maskList (a.col0 idx) m
  rw [map_range_getD (trueIndices m) (fun t0 => a.val (t0 :: idx)) 0]
  rw [trueIndices_map (fun t0 => a.val (t0 :: idx)) m]
  rw [hl]
  rfl

/-- A concrete stand-in for the external RLM fit: offset 0, slope 0, and the
input spectrum itself as residual (the residual length always matches the
input length, as statsmodels' resid does). -/
def rlm0 : List V → RegOut := fun s => ⟨some 0, some 0, s⟩

/-- A concrete 3-event × 1-frequency × 1-electrode power array with values
1, 3, 5 along the event axis. -/
def cexData : NDArr :=
  ⟨[3, 1, 1], "float64", fun idx => some (1 + 2 * (idx.headD 0 : ℚ))⟩

/-- A concrete stand-in for the external FOOOF fit: on a single spectrum it
returns offset 1, slope 2 and the squared spectrum as the peak fit (so that
the fit of a mean spectrum differs from the mean of per-event fits); on
whole-batch data it returns an all-NaN fit. -/
def cexFoof : FoofData → Except String RegOut := fun d =>
  match d with
  | .spectrum s => .ok ⟨some 1, some 2, s.map (fun v => v.map (fun q => q * q))⟩
  | .batch _ => .ok ⟨none, none, []⟩

/-- Inputs for the concrete fooof runs: cexData, one frequency, labels
recalled, recalled, not recalled. -/
def cexInputs : Inputs := ⟨some cexData, [10], some [true, true, false]⟩

/-- The concrete analysis run with use_fooof and fooof_fit_each_event both
true. -/
def c7run : Except String ResState :=
  analysisE (fun _ => RegOut.nanFill) cexFoof id id id
    ⟨true, true, false⟩ cexInputs

/-- The fitting stage of the same run. -/
def c7fits : Except String (List FitTriple) :=
  fitStage (fun _ => RegOut.nanFill) cexFoof id ⟨true, true, false⟩ cexInputs

/-- The residual cell of event i in the concrete fooof runs: the squared
power value of event i. -/
def cexResid (i : Nat) : V := (cexData.val [i, 0, 0]).map (fun q => q * q)

/-- C7 is false on the code: lines 99 and 131 are an if/elif, so with
use_fooof and fooof_fit_each_event both true only the per-event branch
executes.  On this concrete run the stored delta_resid cell is the
per-event branch's nanmean difference (-20) and the t-statistic key is
present, while the value the claimed mean-only overwrite would have stored
from the same fit results (x[2][0] - x[2][1] = -8) differs — nothing was
overwritten. -/
theorem c7_counterexample :
    (c7run.toOption.bind (fun st => st.delta_resid)).map (fun d => d.val [0, 0])
        = some (some (-20)) ∧
    (c7run.toOption.bind (fun st => st.ts_resid)).isSome = true ∧
    c7fits.toOption.map (fun rs =>
      (NDArr.sub ((rs.getD 0 ⟨NDArr.empty, NDArr.empty, NDArr.empty⟩).resids.slice0 0)
        ((rs.getD 0 ⟨NDArr.empty, NDArr.empty, NDArr.empty⟩).resids.slice0 1)).val [0])
        = some (some (-8)) ∧
    (some (-20 : ℚ) : V) ≠ (some (-8 : ℚ) : V) := by
  have e1 : (c7run.toOption.bind (fun st => st.delta_resid)).map (fun d => d.val [0, 0])
      = some (vSub (nanmeanList [cexResid 0, cexResid 1]) (nanmeanList [cexResid 2])) := rfl
  have e2 : (c7run.toOption.bind (fun st => st.ts_resid)).isSome = true := rfl
  have e3 : c7fits.toOption.map (fun rs =>
      (NDArr.sub ((rs.getD 0 ⟨NDArr.empty, NDArr.empty, NDArr.empty⟩).resids.slice0 0)
        ((rs.getD 0 ⟨NDArr.empty, NDArr.empty, NDArr.empty⟩).resids.slice0 1)).val [0])
      = some (vSub (cexResid 0) (cexResid 1)) := rfl
  have hv : ∀ i : Nat, cexResid i =
      some ((1 + 2 * (i : ℚ)) * (1 + 2 * (i : ℚ))) := fun i => rfl
  refine ⟨?_, e2, ?_, ?_⟩
  · rw [e1, hv 0, hv 1, hv 2]
    norm_num [vSub, nanmeanList, List.filterMap_cons, List.filterMap_nil, id_eq]
  · rw [e3, hv 0, hv 1]
    norm_num [vSub]
  · simp only [ne_eq, Option.some.injEq]
    norm_num

/-- C7 (amended): the two contrast branches at lines 99 and 131 form an
if/elif with complementary guards, so exactly one branch executes for every
configuration; in particular when use_fooof and fooof_fit_each_event are
both true only the per-event branch runs (the mean-only branch is never
evaluated and nothing overwrites the per-event delta_* keys, which coexist
with the per-event t/p keys). -/
theorem c7_branch_exclusivity (cfg : Config) :
    meanOnlyBranchCond cfg = !perEventBranchCond cfg ∧
    perEventBranchCond ⟨true, true, cfg.log_power⟩ = true ∧
    meanOnlyBranchCond ⟨true, true, cfg.log_power⟩ = false := by
  obtain ⟨u, fe, lp⟩ := cfg
  cases u <;> cases fe <;> simp [perEventBranchCond, meanOnlyBranchCond]

/-- C10 (amended): for a nonempty 2D per-event slice inside robust_reg, the
fitter raises if and only if the slice's FIRST axis length differs from the
frequency count: when neither axis matches, the axis resolution raises
IndexError; when only axis 1 matches, the slice is left untransposed and the
residual assignment raises ValueError (the returned residual has the
frequency count's length while the slot has the first axis's length); when
axis 0 matches — including when both axes equal the frequency count — no
error is raised, the slice is silently transposed, and the j-th result is
the fit of the slice's j-th column (axis 0 treated as the frequency
axis). -/
theorem c10_axis_resolution (rlmFit : List V → RegOut) (nf d1 d2 : Nat)
    (ev : NDArr) (hs : ev.shape = [d1, d2]) (h1 : 0 < d1) (h2 : 0 < d2)
    (hr : ∀ s, (rlmFit s).resid.length = s.length) :
    ((∃ e, fitSlice2D rlmFit nf ev = .error e) ↔ d1 ≠ nf) ∧
    (d1 = nf → fitSlice2D rlmFit nf ev = .ok ((List.range d2).map
      (fun j => rlmFit ((List.range d1).map (fun r => ev.val [r, j]))))) := by
  have hval : fitSlice2D rlmFit nf ev =
      if d1 = nf then
        .ok ((List.range d2).map
          (fun j => rlmFit ((List.range d1).map (fun r => ev.val [r, j]))))
      else .error (if d2 = nf then "ValueError" else "IndexError") := by
    unfold fitSlice2D
    rw [hs]
    simp only [List.getD_cons_zero, List.getD_cons_succ]
    by_cases hd1 : d1 = nf
    · rw [if_pos hd1, if_pos hd1]
      rw [if_pos (all_map_range _ _ d2 (fun j hj => by simp [hr]))]
    · rw [if_neg hd1, if_neg hd1]
      by_cases hd2 : d2 = nf
      · rw [if_pos hd2, if_pos hd2]
        rw [if_neg]
        rintro ⟨hall, -⟩
        have h0 := List.all_eq_true.mp hall _
          (List.mem_map.mpr ⟨0, List.mem_range.mpr h1, rfl⟩)
        rw [hr] at h0
        simp only [List.length_map, List.length_range, decide_eq_true_eq] at h0
        exact hd1 (by rw [← hd2, h0])
      · rw [if_neg hd2, if_neg hd2]
  constructor
  · constructor
    · rintro ⟨e, he⟩ hd1
      rw [hval, if_pos hd1] at he
      exact Except.noConfusion he
    · intro hd1
      exact ⟨_, by rw [hval, if_neg hd1]⟩
  · intro hd1
    rw [hval, if_pos hd1]

/-- Witness for c10_axis_resolution at a concrete both-axes-match slice: a
2×2 slice with 2 frequencies resolves axis 0 as the frequency axis, is
transposed, and raises nothing. -/
theorem c10_axis_resolution_witness :
    ((∃ e, fitSlice2D rlm0 2 ⟨[2, 2], "float64", fun _ => some 1⟩ = .error e)
        ↔ (2 : Nat) ≠ 2) ∧
    ((2 : Nat) = 2 → fitSlice2D rlm0 2 ⟨[2, 2], "float64", fun _ => some 1⟩ =
      .ok ((List.range 2).map (fun j => rlm0 ((List.range 2).map
        (fun r => (⟨[2, 2], "float64", fun _ => some 1⟩ : NDArr).val [r, j]))))) :=
  c10_axis_resolution rlm0 2 2 2 ⟨[2, 2], "float64", fun _ => some 1⟩ rfl
    (by decide) (by decide) (fun s => rfl)

/-- C10 is false as stated: on a 3×2 slice with 2 frequencies, axis 1 equals
the frequency count — so by the claim no error should be raised — yet the
fitter raises ValueError (at the residual assignment, whose slot has length
3 while the residual has length 2). -/
theorem c10_counterexample :
    fitSlice2D rlm0 2 ⟨[3, 2], "float64", fun _ => some 1⟩ = .error "ValueError"
      ∧ (⟨[3, 2], "float64", fun _ => some 1⟩ : NDArr).shape.getD 1 0 = 2 :=
  ⟨rfl, rfl⟩

/-- The reference construction of the spec for one coordinate: remove the
not-a-number events (and their labels) before computing any statistic. -/
def removeNaNEvents : List V → List Bool → List V × List Bool
  | [], _ => ([], [])
  | _, [] => ([], [])
  | x :: xs, b :: m =>
    let r := removeNaNEvents xs m
    if x.isSome then (x :: r.1, b :: r.2) else r

theorem maskList_removeNaN (xs : List V) (m : List Bool) :
    maskList (removeNaNEvents xs m).1 (removeNaNEvents xs m).2 =
      (maskList xs m).filter (fun v => v.isSome) := by
  induction xs generalizing m with
  | nil => cases m <;> simp [removeNaNEvents, maskList]
  | cons x t ih =>
    cases m with
    | nil => simp [removeNaNEvents, maskList]
    | cons b mt =>
      cases x with
      | none => cases b <;> simp [removeNaNEvents, maskList, ih]
      | some q => cases b <;> simp [removeNaNEvents, maskList, ih]

theorem removeNaN_map_not (xs : List V) (m : List Bool) :
    (removeNaNEvents xs (m.map not)).1 = (removeNaNEvents xs m).1 ∧
    (removeNaNEvents xs (m.map not)).2 = (removeNaNEvents xs m).2.map not := by
  induction xs generalizing m with
  | nil => cases m <;> simp [removeNaNEvents]
  | cons x t ih =>
    cases m with
    | nil => simp [removeNaNEvents]
    | cons b mt =>
      cases x with
      | none => simpa [removeNaNEvents] using ih mt
      | some q =>
        have h := ih mt
        simp [removeNaNEvents, h.1, h.2]

theorem nanmeanList_filter (l : List V) :
    nanmeanList (l.filter (fun v => v.isSome)) = nanmeanList l := by
  have h : (l.filter (fun v => v.isSome)).filterMap id = l.filterMap id := by
    induction l with
    | nil => rfl
    | cons x t ih => cases x <;> simp [ih]
  simp only [nanmeanList, h]

theorem maskList_any_none (xs : List V) (m : List Bool)
    (hlen : m.length = xs.length) (h : xs.any Option.isNone = true) :
    (maskList xs m ++ maskList xs (m.map not)).any Option.isNone = true := by
  induction xs generalizing m with
  | nil => simp at h
  | cons x t ih =>
    cases m with
    | nil => simp at hlen
    | cons b mt =>
      have hl : mt.length = t.length := by simpa using hlen
      cases x with
      | none => cases b <;> simp [maskList, List.any_append]
      | some q =>
        have hany : t.any Option.isNone = true := by simpa using h
        have hrec := ih mt hl hany
        cases b <;> simp only [maskList, List.map_cons, Bool.not_true,
            Bool.not_false, if_pos, if_neg, List.any_append] at hrec ⊢ <;>
          simp_all [List.any_append]

/-- C2 (amended): at each coordinate, not-a-number events are excluded from
the group-mean difference — the nanmean-based delta equals the delta
computed on the inputs with the NaN events manually removed — but they are
NOT excluded from the t-test: with scipy's default nan_policy the t
statistic (and hence the p-value) is NaN whenever any event at that
coordinate is NaN, instead of equalling the statistic of the cleaned
inputs. -/
theorem c2_nan_exclusion (xs : List V) (m : List Bool) (sq : ℚ → ℚ)
    (hlen : m.length = xs.length) :
    (vSub (nanmeanList (maskList xs m)) (nanmeanList (maskList xs (m.map not)))
      = vSub
          (nanmeanList (maskList (removeNaNEvents xs m).1 (removeNaNEvents xs m).2))
          (nanmeanList (maskList (removeNaNEvents xs m).1
            ((removeNaNEvents xs m).2.map not)))) ∧
    (xs.any Option.isNone = true →
      tstat sq (maskList xs m) (maskList xs (m.map not)) = none) := by
  constructor
  · rw [maskList_removeNaN, nanmeanList_filter,
      ← (removeNaN_map_not xs m).1, ← (removeNaN_map_not xs m).2,
      maskList_removeNaN xs (m.map not), nanmeanList_filter]
  · intro hany
    unfold tstat
    rw [if_pos (maskList_any_none xs m hlen hany)]

/-- Witness for c2_nan_exclusion at a concrete column with one NaN event. -/
theorem c2_nan_exclusion_witness :
    (vSub (nanmeanList (maskList [some 1, none] [true, false]))
        (nanmeanList (maskList [some 1, none] ([true, false].map not)))
      = vSub
          (nanmeanList (maskList (removeNaNEvents [some 1, none] [true, false]).1
            (removeNaNEvents [some 1, none] [true, false]).2))
          (nanmeanList (maskList (removeNaNEvents [some 1, none] [true, false]).1
            ((removeNaNEvents [some 1, none] [true, false]).2.map not)))) ∧
    (([some 1, none] : List V).any Option.isNone = true →
      tstat id (maskList [some 1, none] [true, false])
        (maskList [some 1, none] ([true, false].map not)) = none) :=
  c2_nan_exclusion [some 1, none] [true, false] id rfl

/-- The raw per-coordinate column of the C2 counterexample (one NaN event
among six) and its recall labels. -/
def c2col : List V := [some 1, some 3, none, some 2, some 6, some 4]

def c2labels : List Bool := [true, true, true, false, false, false]

/-- C2 is false as stated: on this column the group-mean delta does equal
the cleaned-reference delta, but the t statistic is NaN while the t
statistic of the inputs with the NaN event removed is the finite -18/25
(with the square-root stand-in instantiated as the identity): the NaN event
is not excluded from the t-test, so the t/p statistics do not equal those
of the cleaned inputs. -/
theorem c2_counterexample :
    tstat id (maskList c2col c2labels) (maskList c2col (c2labels.map not))
        = none ∧
    tstat id (maskList (removeNaNEvents c2col c2labels).1
        (removeNaNEvents c2col c2labels).2)
      (maskList (removeNaNEvents c2col c2labels).1
        ((removeNaNEvents c2col c2labels).2.map not))
        = some (-18 / 25) ∧
    (none : V) ≠ some (-18 / 25) := by
  refine ⟨rfl, ?_, by simp⟩
  have e1 : maskList (removeNaNEvents c2col c2labels).1
      (removeNaNEvents c2col c2labels).2 = [some 1, some 3] := rfl
  have e2 : maskList (removeNaNEvents c2col c2labels).1
      ((removeNaNEvents c2col c2labels).2.map not) = [some 2, some 6, some 4] := rfl
  rw [e1, e2]
  norm_num [tstat, ssdList, List.filterMap_cons, List.filterMap_nil, id_eq]

theorem trueIndices_eq_nil (m : List Bool) (h : ∀ b ∈ m, b = false) :
    trueIndices m = [] := by
  induction m with
  | nil => rfl
  | cons b t ih =>
    have hb : b = false := h b (List.mem_cons_self b t)
    subst hb
    rw [show trueIndices (false :: t) = (trueIndices t).map (fun k => k + 1)
      from rfl]
    rw [ih (fun x hx => h x (List.mem_cons_of_mem _ hx))]
    rfl

theorem maskedArr_col0_nil (a : NDArr) (m : List Bool)
    (h : trueIndices m = []) (idx : List Nat) :
    (maskedArr a m).col0 idx = [] := by
  simp [maskedArr, NDArr.col0, h]

theorem tstat_empty_left (sq : ℚ → ℚ) (b : List V) : tstat sq [] b = none := by
  unfold tstat
  by_cases h : (([] : List V) ++ b).any Option.isNone
  · rw [if_pos h]
  · rw [if_neg h]
    simp only [List.filterMap_nil, List.length_nil]
    rw [if_pos (Or.inl (by decide))]

theorem tstat_empty_right (sq : ℚ → ℚ) (a : List V) : tstat sq a [] = none := by
  unfold tstat
  by_cases h : (a ++ ([] : List V)).any Option.isNone
  · rw [if_pos h]
  · rw [if_neg h]
    simp only [List.filterMap_nil, List.length_nil]
    rw [if_pos (Or.inr (by decide))]

/-- C8: for an all-true or all-false recall-label vector the per-event
contrast never divides by zero and never returns a spuriously significant
p-value: every delta cell and every t and p cell is NaN (one of the two
groups is empty, so its nanmean is NaN and the two-sample statistic is
NaN); and in the mean-only fooof mode, the condition-mean spectrum of the
empty condition — one of the two rows handed to the fitter at line 94 — is
NaN at every coordinate. -/
theorem c8_degenerate_labels (a : NDArr) (m : List Bool) (sq pf : ℚ → ℚ)
    (hlen : m.length = a.shape.headD 0)
    (hdeg : (∀ b ∈ m, b = true) ∨ (∀ b ∈ m, b = false)) :
    (∃ d, deltaArr a m = .ok d ∧ ∀ idx, d.val idx = none) ∧
    (∃ t p, ttestAx0 sq pf a m = .ok (t, p) ∧
      ∀ idx, t.val idx = none ∧ p.val idx = none) ∧
    (∃ g₁ g₂, a.maskE m = .ok g₁ ∧ a.maskE (m.map not) = .ok g₂ ∧
      ∀ idx, (stack2Ax0 g₁.mean0 g₂.mean0).val (0 :: idx) = none ∨
             (stack2Ax0 g₁.mean0 g₂.mean0).val (1 :: idx) = none) := by
  have hlen2 : (m.map not).length = a.shape.headD 0 := by simpa using hlen
  have h1 : a.maskE m = .ok (maskedArr a m) := by
    unfold NDArr.maskE
    rw [if_pos hlen]
  have h2 : a.maskE (m.map not) = .ok (maskedArr a (m.map not)) := by
    unfold NDArr.maskE
    rw [if_pos hlen2]
  have hdelta : deltaArr a m =
      .ok ((maskedArr a m).nanmean0.sub (maskedArr a (m.map not)).nanmean0) := by
    unfold deltaArr
    rw [h1, h2]
    rfl
  have httest : ttestAx0 sq pf a m = .ok
      (⟨a.shape.tail, "float64", fun idx =>
          tstat sq ((maskedArr a m).col0 idx) ((maskedArr a (m.map not)).col0 idx)⟩,
       ⟨a.shape.tail, "float64", fun idx => Option.map pf
          (tstat sq ((maskedArr a m).col0 idx) ((maskedArr a (m.map not)).col0 idx))⟩) := by
    unfold ttestAx0
    rw [h1, h2]
    rfl
  rcases hdeg with hT | hF
  · have hnt : trueIndices (m.map not) = [] := by
      refine trueIndices_eq_nil _ ?_
      intro b hb
      rcases List.mem_map.mp hb with ⟨x, hx, rfl⟩
      simp [hT x hx]
    refine ⟨⟨_, hdelta, ?_⟩, ⟨_, _, httest, ?_⟩, ⟨_, _, h1, h2, ?_⟩⟩
    · intro idx
      show vSub (nanmeanList ((maskedArr a m).col0 idx))
        (nanmeanList ((maskedArr a (m.map not)).col0 idx)) = none
      rw [maskedArr_col0_nil a _ hnt idx]
      cases nanmeanList ((maskedArr a m).col0 idx) <;> rfl
    · intro idx
      have ht : tstat sq ((maskedArr a m).col0 idx)
          ((maskedArr a (m.map not)).col0 idx) = none := by
        rw [maskedArr_col0_nil a _ hnt idx]
        exact tstat_empty_right sq _
      exact ⟨ht, by rw [show ((⟨a.shape.tail, "float64", fun idx => Option.map pf
        (tstat sq ((maskedArr a m).col0 idx) ((maskedArr a (m.map not)).col0 idx))⟩ :
          NDArr).val idx) = Option.map pf (tstat sq ((maskedArr a m).col0 idx)
          ((maskedArr a (m.map not)).col0 idx)) from rfl, ht]; rfl⟩
    · intro idx
      refine Or.inr ?_
      show meanList ((maskedArr a (m.map not)).col0 idx) = none
      rw [maskedArr_col0_nil a _ hnt idx]
      rfl
  · have hnm : trueIndices m = [] := trueIndices_eq_nil _ hF
    refine ⟨⟨_, hdelta, ?_⟩, ⟨_, _, httest, ?_⟩, ⟨_, _, h1, h2, ?_⟩⟩
    · intro idx
      show vSub (nanmeanList ((maskedArr a m).col0 idx))
        (nanmeanList ((maskedArr a (m.map not)).col0 idx)) = none
      rw [maskedArr_col0_nil a _ hnm idx]
      rfl
    · intro idx
      have ht : tstat sq ((maskedArr a m).col0 idx)
          ((maskedArr a (m.map not)).col0 idx) = none := by
        rw [maskedArr_col0_nil a _ hnm idx]
        exact tstat_empty_left sq _
      exact ⟨ht, by rw [show ((⟨a.shape.tail, "float64", fun idx => Option.map pf
        (tstat sq ((maskedArr a m).col0 idx) ((maskedArr a (m.map not)).col0 idx))⟩ :
          NDArr).val idx) = Option.map pf (tstat sq ((maskedArr a m).col0 idx)
          ((maskedArr a (m.map not)).col0 idx)) from rfl, ht]; rfl⟩
    · intro idx
      refine Or.inl ?_
      show meanList ((maskedArr a m).col0 idx) = none
      rw [maskedArr_col0_nil a _ hnm idx]
      rfl

/-- Witness for c8_degenerate_labels at a concrete 2-event array with an
all-true label vector. -/
theorem c8_degenerate_labels_witness :
    (∃ d, deltaArr ⟨[2, 1], "float64", fun _ => some 1⟩ [true, true] = .ok d ∧
      ∀ idx, d.val idx = none) ∧
    (∃ t p, ttestAx0 id id ⟨[2, 1], "float64", fun _ => some 1⟩ [true, true]
        = .ok (t, p) ∧ ∀ idx, t.val idx = none ∧ p.val idx = none) ∧
    (∃ g₁ g₂, NDArr.maskE ⟨[2, 1], "float64", fun _ => some 1⟩ [true, true] = .ok g₁ ∧
      NDArr.maskE ⟨[2, 1], "float64", fun _ => some 1⟩ ([true, true].map not) = .ok g₂ ∧
      ∀ idx, (stack2Ax0 g₁.mean0 g₂.mean0).val (0 :: idx) = none ∨
             (stack2Ax0 g₁.mean0 g₂.mean0).val (1 :: idx) = none) :=
  c8_degenerate_labels ⟨[2, 1], "float64", fun _ => some 1⟩ [true, true] id id
    rfl (Or.inl (by decide))

/-- C5 fails on run_foof's 3D branch: for every 3D batch y (events ×
frequencies × sub-units, frequency axis matching the frequency count) whose
whole-batch library fit succeeds with result r, the values stored at EVERY
cell (i, j) are the components of that one whole-batch fit: the data fitted
is y itself (fm.add_data(x, y) at line 338 — the bound this_event_sub is
never used), so no cell is the fit of the single spectrum of event i at
sub-unit j alone. -/
theorem c5_run_foof_whole_batch (ff : FoofData → Except String RegOut)
    (nf n d2 : Nat) (y : NDArr) (r : RegOut) (hs : y.shape = [n, nf, d2])
    (hb : ff (.batch y) = .ok r) (hr : r.resid.length = nf)
    (i j : Nat) (hi : i < n) (hj : j < d2) :
    ∃ t, run_foof ff nf y = .ok t ∧
      t.slopes.val [i, j] = r.slope ∧ t.offsets.val [i, j] = r.offset ∧
      ∀ fr, t.resids.val [i, fr, j] = r.resid.getD fr none := by
  refine ⟨_, run_foof_3d ff nf n d2 y r hs hb hr, ?_, ?_, fun fr => ?_⟩
  · show ((((List.range n).map (fun _ => (List.range d2).map (fun _ => r))).getD
        i []).getD j RegOut.nanFill).slope = r.slope
    rw [getD_map_range (fun _ => (List.range d2).map (fun _ => r)) n i [] hi,
      getD_map_range (fun _ => r) d2 j RegOut.nanFill hj]
  · show ((((List.range n).map (fun _ => (List.range d2).map (fun _ => r))).getD
        i []).getD j RegOut.nanFill).offset = r.offset
    rw [getD_map_range (fun _ => (List.range d2).map (fun _ => r)) n i [] hi,
      getD_map_range (fun _ => r) d2 j RegOut.nanFill hj]
  · show ((((List.range n).map (fun _ => (List.range d2).map (fun _ => r))).getD
        i []).getD j RegOut.nanFill).resid.getD fr none = r.resid.getD fr none
    rw [getD_map_range (fun _ => (List.range d2).map (fun _ => r)) n i [] hi,
      getD_map_range (fun _ => r) d2 j RegOut.nanFill hj]

/-- A concrete 2-event × 2-frequency × 2-sub-unit batch. -/
def c5y : NDArr := ⟨[2, 2, 2], "float64", fun _ => some 1⟩

/-- A concrete external fit returning a fixed finite result. -/
def c5ff : FoofData → Except String RegOut :=
  fun _ => .ok ⟨some 3, some 4, [some 5, some 6]⟩

/-- Witness for c5_run_foof_whole_batch at cell (0, 1) of the concrete
batch. -/
theorem c5_run_foof_whole_batch_witness :
    ∃ t, run_foof c5ff 2 c5y = .ok t ∧
      t.slopes.val [0, 1] = (⟨some 3, some 4, [some 5, some 6]⟩ : RegOut).slope ∧
      t.offsets.val [0, 1] = (⟨some 3, some 4, [some 5, some 6]⟩ : RegOut).offset ∧
      ∀ fr, t.resids.val [0, fr, 1] =
        (⟨some 3, some 4, [some 5, some 6]⟩ : RegOut).resid.getD fr none :=
  c5_run_foof_whole_batch c5ff 2 2 2 c5y ⟨some 3, some 4, [some 5, some 6]⟩
    rfl rfl rfl 0 1 (by decide) (by decide)

/-- A concrete 2-event × 2-frequency × 1-sub-unit batch. -/
def c3Data : NDArr := ⟨[2, 2, 1], "float64", fun _ => some 1⟩

/-- A fooof stand-in under which every single-spectrum fit converges (it
returns the spectrum as peak fit) while the fit of the whole-batch data does
not converge, yielding the all-NaN output that old fooof leaves after
absorbing the optimizer's RuntimeError. -/
def c3Foof : FoofData → Except String RegOut := fun d =>
  match d with
  | .spectrum s => .ok ⟨some 1, some 1, s⟩
  | .batch _ => .ok ⟨none, none, [none, none]⟩

/-- C3 fails on run_foof's 3D branch: every (event, sub-unit) iteration fits
the same whole-batch data, so when that one fit does not converge EVERY
event's slope, offset and residual cells are NaN — not only the outputs of
one event — even though the per-spectrum fit of every individual event
converges (second conjunct). -/
theorem c3_failing_run :
    (run_foof c3Foof 2 c3Data).toOption.map (fun t =>
      (t.slopes.val [0, 0], t.slopes.val [1, 0], t.offsets.val [0, 0],
       t.offsets.val [1, 0], t.resids.val [0, 1, 0], t.resids.val [1, 1, 0]))
      = some (none, none, none, none, none, none) ∧
    c3Foof (.spectrum [some 1, some 2]) = .ok ⟨some 1, some 1, [some 1, some 2]⟩ :=
  ⟨rfl, rfl⟩

/-- A concrete 4D PowerArray: 2 events × 2 frequencies × 3 electrodes ×
2 time bins, so the time axis is strictly smaller than the electrode axis
and the normalization swap fires. -/
def c1Data : NDArr := ⟨[2, 2, 3, 2], "float64", fun _ => some 1⟩

/-- C1 fails on the code: for any 4D PowerArray whose time axis is smaller
than its electrode axis, analysis() raises AxisError at the delta store:
line 138 calls np.swapaxes(delta_slopes, 1, 2) on the 2D delta_slopes array
(whose shape has only the two unit axes, no frequency axis), so axis 2 is
out of bounds and the axis-restored result arrays are never all stored. -/
theorem c1_failing_run :
    analysisE rlm0 (fun _ => .error "unused") id id id ⟨false, false, false⟩
      ⟨some c1Data, [10, 20], some [true, false]⟩ = .error "AxisError" := rfl

/-- Whether an Except value is a success. -/
def isOkB {α : Type} : Except String α → Bool
  | .ok _ => true
  | .error _ => false

/-- The length of a successful list result (0 on error). -/
def okLen {α : Type} : Except String (List α) → Nat
  | .ok l => l.length
  | .error _ => 0

/-- The event-axis length of the first unit's residual array in a
successful fitting-stage result. -/
def firstResidEvents : Except String (List FitTriple) → Nat
  | .ok (t :: _) => t.resids.shape.headD 0
  | _ => 0

/-- The length of the recall-label vector the inputs carry (0 when the
recall_filter_func attribute is unset). -/
def recallLen (inp : Inputs) : Nat :=
  match inp.recallLabels with
  | some l => l.length
  | none => 0

/-- C9 (amended): the missing-input preconditions do surface before any
fitting — an unset recall_filter_func raises TypeError when the None is
called at line 64, an absent subject_data raises on the attribute access at
line 68, both before the fitting loop and with self.res untouched — but a
recall-label length mismatch is NOT checked eagerly: in the
robust-regression path, whenever the fitting stage runs to completion (with
at least one unit) and the label length differs from the first unit's event
count, analysis() still performs all the fitting work and only then raises
IndexError, at the first boolean-masking step of the contrast (line 102). -/
theorem c9_precondition_handling (rlmFit : List V → RegOut)
    (fooofFit : FoofData → Except String RegOut) (sq pf tenPow : ℚ → ℚ)
    (cfg : Config) (inp : Inputs) :
    (inp.recallLabels = none →
      analysisE rlmFit fooofFit sq pf tenPow cfg inp = .error "TypeError") ∧
    (inp.recallLabels ≠ none → inp.subject_data = none →
      analysisE rlmFit fooofFit sq pf tenPow cfg inp = .error "AttributeError") ∧
    (cfg.use_fooof = false →
      isOkB (fitStage rlmFit fooofFit tenPow cfg inp) = true →
      0 < okLen (fitStage rlmFit fooofFit tenPow cfg inp) →
      recallLen inp ≠ firstResidEvents (fitStage rlmFit fooofFit tenPow cfg inp) →
      analysisE rlmFit fooofFit sq pf tenPow cfg inp = .error "IndexError") := by
  refine ⟨?_, ?_, ?_⟩
  · intro h
    unfold analysisE
    rw [h]
  · intro h1 h2
    cases hrec : inp.recallLabels with
    | none => exact absurd hrec h1
    | some labs =>
      unfold analysisE
      rw [hrec, h2]
  · intro huf hok hlen hne
    cases hrec : inp.recallLabels with
    | none =>
      have hfs : fitStage rlmFit fooofFit tenPow cfg inp = .error "TypeError" := by
        unfold fitStage
        rw [hrec]
      rw [hfs] at hok
      exact absurd hok (by decide)
    | some labs =>
      cases hdata : inp.subject_data with
      | none =>
        have hfs : fitStage rlmFit fooofFit tenPow cfg inp =
            .error "AttributeError" := by
          unfold fitStage
          rw [hrec, hdata]
        rw [hfs] at hok
        exact absurd hok (by decide)
      | some data =>
        cases hp : preparedInput tenPow cfg data labs with
        | error e =>
          have hfs : fitStage rlmFit fooofFit tenPow cfg inp = .error e := by
            unfold fitStage
            rw [hrec, hdata]
            show (preparedInput tenPow cfg data labs).bind _ = _
            rw [hp]
            rfl
          rw [hfs] at hok
          exact absurd hok (by simp [isOkB])
        | ok ps =>
          cases hm : mapME
              (fun u => if cfg.use_fooof then run_foof fooofFit inp.freqs.length u
                else robust_reg rlmFit inp.freqs.length u) (unitsOf ps.1) with
          | error e =>
            have hfs : fitStage rlmFit fooofFit tenPow cfg inp = .error e := by
              unfold fitStage
              rw [hrec, hdata]
              show (preparedInput tenPow cfg data labs).bind _ = _
              rw [hp]
              exact hm
            rw [hfs] at hok
            exact absurd hok (by simp [isOkB])
          | ok rs =>
            have hfs : fitStage rlmFit fooofFit tenPow cfg inp = .ok rs := by
              unfold fitStage
              rw [hrec, hdata]
              show (preparedInput tenPow cfg data labs).bind _ = _
              rw [hp]
              exact hm
            cases rs with
            | nil =>
              rw [hfs] at hlen
              exact absurd hlen (by decide)
            | cons t ts =>
              have hmask : labs.length ≠ t.resids.shape.headD 0 := by
                have h5 : recallLen inp = labs.length := by
                  unfold recallLen
                  rw [hrec]
                have h6 : firstResidEvents
                    (fitStage rlmFit fooofFit tenPow cfg inp) =
                      t.resids.shape.headD 0 := by
                  rw [hfs]
                  rfl
                rw [h5, h6] at hne
                exact hne
              have hd : deltaArr t.resids labs = .error "IndexError" := by
                unfold deltaArr NDArr.maskE
                rw [if_neg hmask]
                rfl
              have hpe : perEventBranchCond cfg = true := by
                simp [perEventBranchCond, huf]
              have hana : analysisE rlmFit fooofFit sq pf tenPow cfg inp =
                  contrastStage sq pf cfg ps.2 labs (t :: ts) := by
                unfold analysisE
                rw [hrec, hdata]
                show (preparedInput tenPow cfg data labs).bind _ = _
                rw [hp]
                show (mapME _ (unitsOf ps.1)).bind _ = _
                rw [hm]
                rfl
              rw [hana]
              unfold contrastStage
              rw [hpe]
              show (mapME (fun t0 => deltaArr t0.resids labs) (t :: ts)).bind _ = _
              rw [show mapME (fun t0 => deltaArr t0.resids labs) (t :: ts) =
                  .error "IndexError" by
                show (deltaArr t.resids labs).bind _ = _
                rw [hd]
                rfl]
              rfl

/-- Inputs with a loaded 2-event PowerArray but a 3-entry recall vector. -/
def c9Inputs : Inputs :=
  ⟨some ⟨[2, 2, 2], "float64", fun _ => some 1⟩, [10, 20],
   some [true, false, true]⟩

/-- The fitting stage of the mismatched-labels run. -/
def c9fits : Except String (List FitTriple) :=
  fitStage rlm0 (fun _ => .error "unused") id ⟨false, false, false⟩ c9Inputs

/-- The full mismatched-labels run. -/
def c9run : Except String ResState :=
  analysisE rlm0 (fun _ => .error "unused") id id id ⟨false, false, false⟩
    c9Inputs

/-- C9 is false as stated: with a recall vector of the wrong length, the
fitting stage nevertheless runs to completion (both units fitted) before
analysis() raises IndexError at the contrast step — the precondition
violation is not reported before fitting work begins. -/
theorem c9_counterexample :
    isOkB c9fits = true ∧ okLen c9fits = 2 ∧ c9run = .error "IndexError" :=
  ⟨rfl, rfl, rfl⟩

/-- Witness for c9_precondition_handling: the mismatch case at the concrete
run and the missing-recall_filter_func case at empty inputs. -/
theorem c9_precondition_handling_witness :
    c9run = .error "IndexError" ∧
    analysisE rlm0 (fun _ => .error "unused") id id id ⟨false, false, false⟩
      ⟨none, [], none⟩ = .error "TypeError" := by
  constructor
  · refine (c9_precondition_handling rlm0 (fun _ => .error "unused") id id id
      ⟨false, false, false⟩ c9Inputs).2.2 rfl rfl ?_ ?_
    · show 0 < okLen c9fits
      rw [show okLen c9fits = 2 from rfl]
      decide
    · show recallLen c9Inputs ≠ firstResidEvents c9fits
      rw [show recallLen c9Inputs = 3 from rfl,
        show firstResidEvents c9fits = 2 from rfl]
      decide
  · exact (c9_precondition_handling rlm0 (fun _ => .error "unused") id id id
      ⟨false, false, false⟩ ⟨none, [], none⟩).1 rfl

theorem stackLast_map_range_shape (n : Nat) (g : Nat → NDArr) (h : 0 < n) :
    (NDArr.stackLast ((List.range n).map g)).shape = (g 0).shape ++ [n] := by
  unfold NDArr.stackLast
  rw [headD_map_range n g NDArr.empty h]
  simp

theorem stackLast_map_range_val (n : Nat) (g : Nat → NDArr) (idx : List Nat)
    (h : idx.getLastD 0 < n) :
    (NDArr.stackLast ((List.range n).map g)).val idx =
      (g (idx.getLastD 0)).val idx.dropLast := by
  show (((List.range n).map g).getD (idx.getLastD 0) NDArr.empty).val
    idx.dropLast = _
  rw [getD_map_range g n _ NDArr.empty h]

/-- The across-event mean spectrum of one recall condition at unit u of a 3D
array: for each frequency bin, the plain (NaN-propagating, np.mean, line 94)
mean over the selected events of the value at (event, frequency, unit). -/
def condMeanSpec (a : NDArr) (sel : List Nat) (f u : Nat) : List V :=
  (List.range f).map (fun fr => meanList (sel.map (fun ev => a.val [ev, fr, u])))

/-- C6: in the default oscillation-decomposition mode (use_fooof true,
fooof_fit_each_event false) on a 3D PowerArray, the array handed to the
fitting loop has exactly 2 rows per unit — the across-event mean spectrum of
the recalled and of the not-recalled condition — so exactly 2 fits per unit
are performed; the t-test step is skipped and no t/p keys are stored; and
each stored delta_* cell equals the recalled-condition fit minus the
not-recalled-condition fit of those mean spectra. -/
theorem c6_mean_only_mode (rlmFit : List V → RegOut)
    (fooofFit : FoofData → Except String RegOut) (sq pf tenPow : ℚ → ℚ)
    (lp : Bool) (e f c : Nat) (data : NDArr) (freqs : List ℚ)
    (recalled : List Bool) (hshape : data.shape = [e, f, c])
    (hrl : recalled.length = e) (hc : 0 < c) (fitR fitN : Nat → RegOut)
    (hokR : ∀ u, u < c → fooofFit (.spectrum (condMeanSpec
      (if lp then data.mapV (fun v => v.map tenPow) else data)
      (trueIndices recalled) f u)) = .ok (fitR u))
    (hokN : ∀ u, u < c → fooofFit (.spectrum (condMeanSpec
      (if lp then data.mapV (fun v => v.map tenPow) else data)
      (trueIndices (recalled.map not)) f u)) = .ok (fitN u))
    (hlenR : ∀ u, u < c → (fitR u).resid.length = f)
    (hlenN : ∀ u, u < c → (fitN u).resid.length = f) :
    (∃ pU, preparedInput tenPow ⟨true, false, lp⟩ data recalled =
      .ok (pU, false) ∧ pU.shape = [2, f, c]) ∧
    ∃ st, analysisE rlmFit fooofFit sq pf tenPow ⟨true, false, lp⟩
        ⟨some data, freqs, some recalled⟩ = .ok st ∧
      st.ts_resid = none ∧ st.ps_resid = none ∧ st.ts_slopes = none ∧
      st.ps_slopes = none ∧ st.ts_offsets = none ∧ st.ps_offsets = none ∧
      ∃ dr dsl dof, st.delta_resid = some dr ∧ st.delta_slopes = some dsl ∧
        st.delta_offsets = some dof ∧ dr.shape = [f, c] ∧
        (∀ fr u, fr < f → u < c → dr.val [fr, u] =
          vSub ((fitR u).resid.getD fr none) ((fitN u).resid.getD fr none)) ∧
        (∀ u, u < c → dsl.val [u] = vSub (fitR u).slope (fitN u).slope ∧
          dof.val [u] = vSub (fitR u).offset (fitN u).offset) := by
  set dataU : NDArr := if lp then data.mapV (fun v => v.map tenPow) else data
    with hdU
  have hshapeU : dataU.shape = [e, f, c] := by
    cases lp <;> simp [hdU, NDArr.mapV, hshape]
  have hnorm : AxisOrientation.normalize data = (data, false) := by
    unfold AxisOrientation.normalize
    rw [if_neg (by rw [hshape]; simp)]
  have hm1 : dataU.maskE recalled = .ok (maskedArr dataU recalled) := by
    unfold NDArr.maskE
    rw [if_pos (by rw [hshapeU]; simpa using hrl)]
  have hm2 : dataU.maskE (recalled.map not) =
      .ok (maskedArr dataU (recalled.map not)) := by
    unfold NDArr.maskE
    rw [if_pos (by rw [hshapeU]; simpa using hrl)]
  set pU : NDArr := stack2Ax0 (maskedArr dataU recalled).mean0
    (maskedArr dataU (recalled.map not)).mean0 with hpU
  have hprep : preparedInput tenPow ⟨true, false, lp⟩ data recalled =
      .ok (pU, false) := by
    unfold preparedInput
    rw [hnorm]
    show (dataU.maskE recalled).bind _ = _
    rw [hm1]
    show (dataU.maskE (recalled.map not)).bind _ = _
    rw [hm2]
    rfl
  have hpUshape : pU.shape = [2, f, c] := by
    show 2 :: (maskedArr dataU recalled).mean0.shape = [2, f, c]
    rw [show (maskedArr dataU recalled).mean0.shape = dataU.shape.tail from rfl,
      hshapeU]
    rfl
  have hunits : unitsOf pU = (List.range c).map (fun k =>
      ⟨[2, f], pU.dtype, fun idx => pU.val (idx ++ [k])⟩) := by
    rw [unitsOf_eq, hpUshape]
    rfl
  have hcol : ∀ (m' : List Bool) (idx : List Nat),
      (maskedArr dataU m').col0 idx =
        (trueIndices m').map (fun ev => dataU.val (ev :: idx)) := by
    intro m' idx
    show (List.range (trueIndices m').length).map
      (fun k => dataU.val ((trueIndices m').getD k 0 :: idx)) = _
    exact map_range_getD (trueIndices m') (fun ev => dataU.val (ev :: idx)) 0
  have hrow0 : ∀ u0, (List.range f).map (fun r => pU.val [0, r, u0]) =
      condMeanSpec dataU (trueIndices recalled) f u0 := by
    intro u0
    unfold condMeanSpec
    refine map_range_congr f _ _ (fun fr hfr => ?_)
    show meanList ((maskedArr dataU recalled).col0 [fr, u0]) = _
    rw [hcol recalled [fr, u0]]
  have hrow1 : ∀ u0, (List.range f).map (fun r => pU.val [1, r, u0]) =
      condMeanSpec dataU (trueIndices (recalled.map not)) f u0 := by
    intro u0
    unfold condMeanSpec
    refine map_range_congr f _ _ (fun fr hfr => ?_)
    show meanList ((maskedArr dataU (recalled.map not)).col0 [fr, u0]) = _
    rw [hcol (recalled.map not) [fr, u0]]
  have hfitu : ∀ u0, u0 < c →
      run_foof fooofFit freqs.length
          (⟨[2, f], pU.dtype, fun idx => pU.val (idx ++ [u0])⟩ : NDArr) =
        .ok (assemble2D 2 f ((List.range 2).map
          (fun i => if i = 0 then fitR u0 else fitN u0))) := by
    intro u0 hu
    refine run_foof_2d fooofFit freqs.length 2 f _ rfl
      (fun i => if i = 0 then fitR u0 else fitN u0) ?_ ?_
    · intro i hi
      match i, hi with
      | 0, _ =>
        show fooofFit (.spectrum ((List.range f).map
          (fun r => pU.val [0, r, u0]))) = _
        rw [hrow0 u0]
        simpa using hokR u0 hu
      | 1, _ =>
        show fooofFit (.spectrum ((List.range f).map
          (fun r => pU.val [1, r, u0]))) = _
        rw [hrow1 u0]
        simpa using hokN u0 hu
    · intro i hi
      match i, hi with
      | 0, _ => simpa using hlenR u0 hu
      | 1, _ => simpa using hlenN u0 hu
  have hfinal : analysisE rlmFit fooofFit sq pf tenPow ⟨true, false, lp⟩
      ⟨some data, freqs, some recalled⟩ = .ok
      ⟨none, none, none, none, none, none,
       some (NDArr.stackLast (((List.range c).map (fun u0 => assemble2D 2 f
         ((List.range 2).map (fun i => if i = 0 then fitR u0 else fitN u0)))).map
         (fun t => (t.resids.slice0 0).sub (t.resids.slice0 1)))),
       some (NDArr.stackLast (((List.range c).map (fun u0 => assemble2D 2 f
         ((List.range 2).map (fun i => if i = 0 then fitR u0 else fitN u0)))).map
         (fun t => (t.slopes.slice0 0).sub (t.slopes.slice0 1)))),
       some (NDArr.stackLast (((List.range c).map (fun u0 => assemble2D 2 f
         ((List.range 2).map (fun i => if i = 0 then fitR u0 else fitN u0)))).map
         (fun t => (t.offsets.slice0 0).sub (t.offsets.slice0 1)))),
       (if recalled.length = 0 then some none
        else some (some ((recalled.count true : ℚ) / (recalled.length : ℚ)))),
       some recalled⟩ := by
    show (preparedInput tenPow ⟨true, false, lp⟩ data recalled).bind _ = _
    rw [hprep]
    show (mapME (fun u => run_foof fooofFit freqs.length u) (unitsOf pU)).bind _ = _
    rw [hunits]
    rw [mapME_map_range c
      (fun k => (⟨[2, f], pU.dtype, fun idx => pU.val (idx ++ [k])⟩ : NDArr))
      (fun u => run_foof fooofFit freqs.length u)
      (fun u0 => assemble2D 2 f ((List.range 2).map
        (fun i => if i = 0 then fitR u0 else fitN u0)))
      (fun u0 hu => hfitu u0 hu)]
    rfl
  refine ⟨⟨pU, hprep, hpUshape⟩, _, hfinal, rfl, rfl, rfl, rfl, rfl, rfl,
    _, _, _, rfl, rfl, rfl, ?_, ?_, ?_⟩
  · show (NDArr.stackLast (((List.range c).map (fun u0 => assemble2D 2 f
        ((List.range 2).map (fun i => if i = 0 then fitR u0 else fitN u0)))).map
        (fun t => (t.resids.slice0 0).sub (t.resids.slice0 1)))).shape = [f, c]
    rw [List.map_map, stackLast_map_range_shape c _ hc]
    rfl
  · intro fr u hfr hu
    show (NDArr.stackLast (((List.range c).map (fun u0 => assemble2D 2 f
        ((List.range 2).map (fun i => if i = 0 then fitR u0 else fitN u0)))).map
        (fun t => (t.resids.slice0 0).sub (t.resids.slice0 1)))).val [fr, u] =
      vSub ((fitR u).resid.getD fr none) ((fitN u).resid.getD fr none)
    rw [List.map_map, stackLast_map_range_val c _ [fr, u] (by simpa using hu)]
    rfl
  · intro u hu
    constructor
    · show (NDArr.stackLast (((List.range c).map (fun u0 => assemble2D 2 f
          ((List.range 2).map (fun i => if i = 0 then fitR u0 else fitN u0)))).map
          (fun t => (t.slopes.slice0 0).sub (t.slopes.slice0 1)))).val [u] =
        vSub (fitR u).slope (fitN u).slope
      rw [List.map_map, stackLast_map_range_val c _ [u] (by simpa using hu)]
      rfl
    · show (NDArr.stackLast (((List.range c).map (fun u0 => assemble2D 2 f
          ((List.range 2).map (fun i => if i = 0 then fitR u0 else fitN u0)))).map
          (fun t => (t.offsets.slice0 0).sub (t.offsets.slice0 1)))).val [u] =
        vSub (fitR u).offset (fitN u).offset
      rw [List.map_map, stackLast_map_range_val c _ [u] (by simpa using hu)]
      rfl

/-- A concrete 1-event × 1-frequency × 1-electrode array for the mean-only
mode witness. -/
def c6D : NDArr := ⟨[1, 1, 1], "float64", fun _ => some 1⟩

/-- A constant external fit for the mean-only mode witness. -/
def c6FF : FoofData → Except String RegOut :=
  fun _ => .ok ⟨some 0, some 0, [some 0]⟩

/-- The constant fit output of c6FF. -/
def c6K : RegOut := ⟨some 0, some 0, [some 0]⟩

/-- Witness for c6_mean_only_mode at the concrete 1×1×1 array with a
constant external fit. -/
theorem c6_mean_only_mode_witness :
    (∃ pU, preparedInput id ⟨true, false, false⟩ c6D [true] =
      .ok (pU, false) ∧ pU.shape = [2, 1, 1]) ∧
    ∃ st, analysisE rlm0 c6FF id id id ⟨true, false, false⟩
        ⟨some c6D, [10], some [true]⟩ = .ok st ∧
      st.ts_resid = none ∧ st.ps_resid = none ∧ st.ts_slopes = none ∧
      st.ps_slopes = none ∧ st.ts_offsets = none ∧ st.ps_offsets = none ∧
      ∃ dr dsl dof, st.delta_resid = some dr ∧ st.delta_slopes = some dsl ∧
        st.delta_offsets = some dof ∧ dr.shape = [1, 1] ∧
        (∀ fr u, fr < 1 → u < 1 → dr.val [fr, u] =
          vSub (c6K.resid.getD fr none) (c6K.resid.getD fr none)) ∧
        (∀ u, u < 1 → dsl.val [u] = vSub c6K.slope c6K.slope ∧
          dof.val [u] = vSub c6K.offset c6K.offset) :=
  c6_mean_only_mode rlm0 c6FF id id id false 1 1 1 c6D [10] [true] rfl rfl
    (by decide) (fun _ => c6K) (fun _ => c6K) (fun u hu => rfl)
    (fun u hu => rfl) (fun u hu => rfl) (fun u hu => rfl)

/-- A 4D PowerArray (2 events × 2 frequencies × 3 electrodes × 2 time bins,
time < electrodes, so the normalization swap fires) for the mean-only-mode
counterexample. -/
def c6xSwapData : NDArr := ⟨[2, 2, 3, 2], "float64", fun _ => some 1⟩

/-- A 4D PowerArray (2 events × 2 frequencies × 2 electrodes × 3 time bins,
time ≥ electrodes, so no swap and no AxisError) whose event 0 carries value
3 and event 1 value 5 at every coordinate. -/
def c6xData : NDArr :=
  ⟨[2, 2, 2, 3], "float64", fun idx => some (3 + 2 * (idx.headD 0 : ℚ))⟩

/-- An external fit distinguishing what data it got: a single spectrum is
fitted to itself (offset 1, slope 2, the spectrum as peak fit), while
whole-batch data yields the fixed fit (offset 5, slope 7, peak fit 9 at
both frequencies). -/
def c6xFF : FoofData → Except String RegOut := fun d =>
  match d with
  | .spectrum s => .ok ⟨some 1, some 2, s⟩
  | .batch _ => .ok ⟨some 5, some 7, [some 9, some 9]⟩

/-- The mean-only-mode run on the unswapped 4D array. -/
def c6xRun : Except String ResState :=
  analysisE rlm0 c6xFF id id id ⟨true, false, false⟩
    ⟨some c6xData, [10, 20], some [true, false]⟩

/-- C6 is false as stated for 4D PowerArrays.  First conjunct: on a 4D
array with time < electrodes the mean-only run raises AxisError (the line
138 swap-back of the 2D delta_slopes), so no delta_* keys are produced at
all.  Remaining conjuncts: on a 4D array with time ≥ electrodes the run
returns, but each per-unit input is 3D, so the line-338 whole-batch bug
makes every cell the fit of the whole stacked two-mean batch: the stored
delta_resid cell is whole-batch fit minus the same whole-batch fit (0),
while the fits of the two condition-mean spectra (values 3 and 5, fitted to
themselves by c6xFF) would give −2: the delta does not equal the
recalled-condition fit minus the not-recalled-condition fit. -/
theorem c6_counterexample :
    analysisE rlm0 c6xFF id id id ⟨true, false, false⟩
        ⟨some c6xSwapData, [10, 20], some [true, false]⟩ = .error "AxisError" ∧
    (c6xRun.toOption.bind (fun st => st.delta_resid)).map
        (fun d => d.val [0, 0, 0]) = some (some 0) ∧
    c6xFF (.spectrum [meanList [some 3], meanList [some 3]]) =
        .ok ⟨some 1, some 2, [meanList [some 3], meanList [some 3]]⟩ ∧
    c6xFF (.spectrum [meanList [some 5], meanList [some 5]]) =
        .ok ⟨some 1, some 2, [meanList [some 5], meanList [some 5]]⟩ ∧
    vSub (meanList [some 3]) (meanList [some 5]) = some (-2) ∧
    (some (0 : ℚ) : V) ≠ (some (-2 : ℚ) : V) := by
  have e2 : (c6xRun.toOption.bind (fun st => st.delta_resid)).map
      (fun d => d.val [0, 0, 0]) = some (vSub (some 9) (some 9)) := rfl
  refine ⟨rfl, ?_, rfl, rfl, ?_, ?_⟩
  · rw [e2]
    norm_num [vSub]
  · norm_num [vSub, meanList, List.filterMap_cons, List.filterMap_nil, id_eq]
  · simp only [ne_eq, Option.some.injEq]
    norm_num
